import Mathlib

/-!
Shallow embedding of jakebowkett/go-logger.

The repository contains two variants of the same design:
  * package `logger` (src/unnamed/part_000): the full variant with
    `OnLogEvent`, `OnError`, `NewId`, `Session.SeenError`;
  * package `log` (src/log/log.go): an earlier variant without `OnError`.

The main embedding (namespace `GoLogger`) follows package `logger`;
namespace `LogPkg` embeds the parts of package `log` that differ.

State: the Go `Logger` has immutable configuration fields
(`DisableDebug`, `DisableRuntime`, whether each callback is set) and a
single mutable `sync.Map` (`logs`, thread id -> []*Entry).  We model the
configuration as a `Config` record, the map as a function
`String → Option (List Entry)`, and each Go method as a function from
store to store.  Callback invocations are returned as an ordered list of
`Emission`s instead of being performed, and `time.Now()`,
`runtime.Caller` and the uuid generator are passed in as arguments,
since they are external inputs to the core.
-/

namespace GoLogger

/-- Model of the Go `logLevel` values `levelInfo`, `levelError`, `levelDebug`
(part_000 lines 13-25). -/
inductive LogLevel
  | info
  | error
  | debug
deriving DecidableEq

/-- Model of `logLevel.String()`: the `name` field of each level value. -/
def LogLevel.toString : LogLevel → String
  | .info => "Info"
  | .error => "Error"
  | .debug => "Debug"

/-- Model of the Go `logKind` values `kindRequest` and `kindSession`
(part_000 lines 27-38). -/
inductive LogKind
  | request
  | session
deriving DecidableEq

/-- Model of the Go `Entry` struct (part_000 lines 50-58).  Field defaults
are the Go zero values, so `{}` is the no-op entry `&Entry{}`.  `KeyVals`
holds `fmt.Stringer` keys and `interface{}` values; we model both as the
strings they render to, which is all the core ever does with them. -/
structure Entry where
  threadId : String := ""
  level : String := ""
  function : String := ""
  file : String := ""
  message : String := ""
  line : Int := 0
  keyVals : List (String × String) := []
deriving DecidableEq

/-- Model of `(*Entry).Data` (part_000 lines 60-63): append one key/value
pair and return the entry for chaining. -/
def Entry.data (e : Entry) (k v : String) : Entry :=
  { e with keyVals := e.keyVals ++ [(k, v)] }

/-- The `logs sync.Map` of the Go `Logger`: thread id -> buffered entries. -/
def Store := String → Option (List Entry)

/-- A `Logger` whose map holds no keys. -/
def emptyStore : Store := fun _ => none

/-- Model of `sync.Map.Store`: map `id` to `v`, other keys unchanged. -/
def Store.store (s : Store) (id : String) (v : List Entry) : Store :=
  fun j => if j = id then some v else s j

/-- Model of `sync.Map.Delete`: remove the mapping for `id`. -/
def Store.delete (s : Store) (id : String) : Store :=
  fun j => if j = id then none else s j

/-- The immutable configuration of a Go `Logger` (part_000 lines 78-84):
the two boolean switches plus whether each callback field is non-nil. -/
structure Config where
  hasOnLogEvent : Bool
  hasOnError : Bool
  disableDebug : Bool
  disableRuntime : Bool

/-- Result of `runtime.Caller` + `runtime.FuncForPC(...).Name()` at the
inspected frame: `some (funcName, file, line)` when `ok`, `none` when not.
This is the external call-site introspector, passed in as an argument. -/
def CallerInfo := Option (String × String × Int)

/-- Model of stripping the function name of any path prefix up to the last
`/` (part_000 lines 143-145): `strings.LastIndex(function, "/")` followed
by the slice `function[idx+1:]`, i.e. keep the characters after the last
`/`, or the whole string when there is none.  Both cases are the reversed
longest `/`-free suffix of the reversed character list. -/
def stripFuncPath (s : String) : String :=
  String.mk ((s.data.reverse.takeWhile (fun ch => ch ≠ '/')).reverse)

/-- Model of `(*Logger).getCallSite` (part_000 lines 127-151): zero values
when `DisableRuntime`; placeholders when `runtime.Caller` is not ok (its
line result is then the zero value 0); otherwise the stripped function
name, the file and the line. -/
def getCallSite (disableRuntime : Bool) (c : CallerInfo) : String × String × Int :=
  if disableRuntime then ("", "", 0)
  else
    match c with
    | none => ("Unknown", "Unable to obtain call site.", 0)
    | some (pcName, fn, ln) => (stripFuncPath pcName, fn, ln)

/-- Model of `(*Logger).insertEntry` (part_000 lines 175-187), sequential
semantics: `Load` the sequence for the entry's thread id; if absent,
`Store` a singleton; else `Store` the sequence with the entry appended. -/
def insertEntry (logs : Store) (e : Entry) : Store :=
  match logs e.threadId with
  | none => logs.store e.threadId [e]
  | some ee => logs.store e.threadId (ee ++ [e])

/-- The entry `(*Logger).logEntry` constructs on its unsuppressed path
(part_000 lines 159-168). -/
def mkEntry (cfg : Config) (c : CallerInfo) (level : LogLevel) (threadId msg : String) : Entry :=
  { threadId := threadId
    level := level.toString
    function := (getCallSite cfg.disableRuntime c).1
    file := (getCallSite cfg.disableRuntime c).2.1
    line := (getCallSite cfg.disableRuntime c).2.2
    message := msg }

/-- Model of `(*Logger).logEntry` (part_000 lines 153-173): if the level is
Debug and `DisableDebug` is set, return the no-op entry `&Entry{}` without
touching the store; otherwise construct the entry with call-site metadata
and insert it.  Returns the entry and the updated store. -/
def logEntry (cfg : Config) (logs : Store) (c : CallerInfo) (level : LogLevel)
    (threadId msg : String) : Entry × Store :=
  if level = LogLevel.debug ∧ cfg.disableDebug then ({}, logs)
  else
    let e := mkEntry cfg c level threadId msg
    (e, insertEntry logs e)

/-- Model of the drain at the top of `(*Logger).end` (part_000 lines
191-196): `Load` the sequence for the id; when present, `Delete` the
mapping and keep the sequence; when absent, the sequence is `nil`. -/
def takeAndClear (logs : Store) (id : String) : List Entry × Store :=
  match logs id with
  | some ee => (ee, logs.delete id)
  | none => ([], logs)

/-- Model of the Go `Log` struct (part_000 lines 40-48).  `Date` is the
`time.Now()` value, supplied to `finish` as an argument. -/
structure Log where
  date : Nat
  kind : LogKind
  threadId : String
  route : String
  status : Int
  duration : Int
  entries : List Entry
deriving DecidableEq

/-- One callback invocation performed by `(*Logger).end`, in order. -/
inductive Emission
  | errCB (lg : Log)
  | mainCB (lg : Log)
deriving DecidableEq

/-- Model of `(*Logger).end` (part_000 lines 189-232).  Mirrors the Go
control flow: drain the id's sequence; return early for an empty Session;
build `log` with the supplied fields and the drained entries; if `OnError`
is set and some drained entry has level Error, set `log.Entries` to the
error entries only and invoke `OnError` with `log`; if `OnLogEvent` is
set, invoke it with the current value of `log` (which is the filtered one
when the `OnError` branch ran, since `log.Entries = errs` mutates the
record that is later passed to `OnLogEvent`). -/
def finish (cfg : Config) (logs : Store) (now : Nat) (kind : LogKind)
    (threadId route : String) (status duration : Int) : Store × List Emission :=
  let tc := takeAndClear logs threadId
  let ee := tc.1
  if kind = LogKind.session ∧ ee = [] then (tc.2, [])
  else
    let lg : Log := { date := now, kind := kind, threadId := threadId,
                      route := route, status := status, duration := duration,
                      entries := ee }
    let errs := ee.filter (fun e => e.level = LogLevel.error.toString)
    let lg2 := if cfg.hasOnError ∧ errs ≠ [] then { lg with entries := errs } else lg
    let ems := if cfg.hasOnError ∧ errs ≠ [] then [Emission.errCB lg2] else []
    if cfg.hasOnLogEvent then (tc.2, ems ++ [Emission.mainCB lg2]) else (tc.2, ems)

/-- The internal error entry built by `(*Logger).logUUIDError` (part_000
lines 119-125): level Error, message prefixed as in the source, every
other field at its zero value (in particular `ThreadId` is empty). -/
def uuidErrEntry (err : String) : Entry :=
  { level := LogLevel.error.toString
    message := "couldn't generate UUID for logger thread: " ++ err }

/-- Model of `(*Logger).NewId` (part_000 lines 110-117).  The external
uuid generator's outcome is passed in: `genVal` is the `String()` form of
the value `uuid.NewV4()` produced and `genErr` its error.  On error the
logger records the internal error entry through `insertEntry` and still
returns `genVal`; the Go signature `NewId() string` has no error result,
so no error can reach the caller. -/
def newId (logs : Store) (genVal : String) (genErr : Option String) : String × Store :=
  match genErr with
  | some err => (genVal, insertEntry logs (uuidErrEntry err))
  | none => (genVal, logs)

/-- Model of the Go `Session` handle (part_000 lines 234-238): the logger
pointer is implicit (the store is passed explicitly), leaving the name and
the generated id. -/
structure Session where
  name : String
  id : String

/-- Model of `(*Session).SeenError` (part_000 lines 248-263): `Load` the
sequence for the session's id (the only store operation the method
performs, so the store comes back unchanged); `false` when absent,
otherwise `true` iff the loop finds an entry whose level is `"Error"`. -/
def Session.seenError (logs : Store) (s : Session) : Bool × Store :=
  match logs s.id with
  | none => (false, logs)
  | some ee => (ee.any (fun e => e.level = "Error"), logs)

/-- Model of `(*Session).End` (part_000 lines 285-287): delegate to `end`
with kind Session, the session's id and name, and zero status/duration. -/
def Session.finishSession (cfg : Config) (logs : Store) (now : Nat) (s : Session) :
    Store × List Emission :=
  finish cfg logs now LogKind.session s.id s.name 0 0

/-- Model of N sequential record calls with the same thread id: one
`logEntry` per `(level, message, caller-info)` triple, threading the
store. -/
def recordMany (cfg : Config) (logs : Store) (id : String)
    (calls : List (LogLevel × String × CallerInfo)) : Store :=
  calls.foldl (fun s c => (logEntry cfg s c.2.2 c.1 id c.2.1).2) logs

/-!
Interleaving model of concurrent `insertEntry` calls.

`insertEntry` (part_000 lines 175-187) performs two separate atomic
operations on the `sync.Map`: a `Load`, then a `Store` computed from the
loaded value (`sync.Map` gives no atomic read-modify-write here, and the
logger holds no lock).  Between the two, other goroutines may run.  We
model each goroutine as a list of entries it will insert plus an optional
in-flight insert: the entry together with the value its `Load` returned.
A scheduler step lets one goroutine run until its next `sync.Map`
operation completes.  Entry construction (`logEntry` before the insert)
touches no shared state, so pre-built pending entries lose no generality.
-/

/-- One goroutine inserting entries: `pending` not yet started, `inFlight`
an insert whose `Load` has executed (with its result) but whose `Store`
has not. -/
structure RThread where
  pending : List Entry
  inFlight : Option (Entry × Option (List Entry))
deriving DecidableEq

/-- Run one goroutine up to its next atomic `sync.Map` operation.  With an
insert in flight, perform its `Store`: a singleton list when the `Load`
missed, the loaded list with the entry appended otherwise — exactly the
two branches of `insertEntry`.  Otherwise begin the next pending insert by
performing its `Load`. -/
def threadStep (logs : Store) (t : RThread) : Store × RThread :=
  match t.inFlight with
  | some (e, r) =>
      let logs2 :=
        match r with
        | none => logs.store e.threadId [e]
        | some ee => logs.store e.threadId (ee ++ [e])
      (logs2, { t with inFlight := none })
  | none =>
      match t.pending with
      | [] => (logs, t)
      | e :: rest => (logs, { pending := rest, inFlight := some (e, logs e.threadId) })

/-- Run a schedule: each element names the goroutine that performs its
next atomic operation. -/
def runSched (logs : Store) (ts : List RThread) (sched : List Nat) : Store × List RThread :=
  sched.foldl
    (fun st i =>
      match st.2[i]? with
      | none => st
      | some t =>
          let r := threadStep st.1 t
          (r.1, st.2.set i r.2))
    (logs, ts)

end GoLogger

namespace LogPkg

/-- Model of the `entry` struct of package `log` (log.go lines 50-60):
like the other variant's `Entry` but with an `EntryId` field (the `logger`
back-pointer is implicit in our state passing).  Defaults are the Go zero
values, so `{}` is `&entry{}`. -/
structure LEntry where
  entryId : String := ""
  threadId : String := ""
  level : String := ""
  function : String := ""
  file : String := ""
  message : String := ""
  line : Int := 0
  keyVals : List (String × String) := []
deriving DecidableEq

/-- The `logs sync.Map` of the package `log` variant. -/
def LStore := String → Option (List LEntry)

/-- A store holding no keys. -/
def emptyLStore : LStore := fun _ => none

/-- Map update, as for the other variant's store. -/
def LStore.store (s : LStore) (id : String) (v : List LEntry) : LStore :=
  fun j => if j = id then some v else s j

/-- Model of `(*Logger).logEntry` of package `log` (log.go lines 103-152).
The suppression guard is `if l.DisableDebug` with no level test: with
`DisableDebug` set, EVERY call returns `&entry{}` and stores nothing,
whatever its level.  Otherwise: call-site capture as in the other variant
(inline in the source), an `entryId` from the external generator
(`gen.Base64(16)`, passed in), then the `Load`/`Store` insert. -/
def logEntry (cfg : GoLogger.Config) (logs : LStore) (c : GoLogger.CallerInfo)
    (genId : String) (level : GoLogger.LogLevel) (threadId msg : String) : LEntry × LStore :=
  if cfg.disableDebug then ({}, logs)
  else
    let site := GoLogger.getCallSite cfg.disableRuntime c
    let e : LEntry := { entryId := genId, threadId := threadId,
                        level := level.toString, function := site.1,
                        file := site.2.1, line := site.2.2, message := msg }
    match logs threadId with
    | none => (e, logs.store threadId [e])
    | some ee => (e, logs.store threadId (ee ++ [e]))

end LogPkg

namespace GoLogger

/-- Reading a store right after `Store.store` at the written key. -/
lemma Store.store_at (s : Store) (id : String) (v : List Entry) :
    (s.store id v) id = some v := by
  simp [Store.store]

/-- Reading a store after `Store.store` at a different key. -/
lemma Store.store_other (s : Store) (id : String) (v : List Entry)
    (j : String) (h : j ≠ id) : (s.store id v) j = s j := by
  simp [Store.store, h]

/-- Reading a store after `Store.delete` at the deleted key. -/
lemma Store.delete_at (s : Store) (id : String) : (s.delete id) id = none := by
  simp [Store.delete]

/-- Reading a store after `Store.delete` at a different key. -/
lemma Store.delete_other (s : Store) (id : String) (j : String) (h : j ≠ id) :
    (s.delete id) j = s j := by
  simp [Store.delete, h]

/-- After `insertEntry`, the entry's key maps to the old buffer (empty when
absent) with the entry appended. -/
lemma insertEntry_at (logs : Store) (e : Entry) :
    (insertEntry logs e) e.threadId = some ((logs e.threadId).getD [] ++ [e]) := by
  unfold insertEntry
  cases h : logs e.threadId with
  | none => simp [h, Store.store_at]
  | some ee => simp [h, Store.store_at]

/-- `insertEntry` leaves every other key unchanged. -/
lemma insertEntry_other (logs : Store) (e : Entry) (j : String)
    (h : j ≠ e.threadId) : (insertEntry logs e) j = logs j := by
  unfold insertEntry
  cases logs e.threadId with
  | none => simp [Store.store_other _ _ _ _ h]
  | some ee => simp [Store.store_other _ _ _ _ h]

/-- The sequence `takeAndClear` returns is the buffered one, empty when the
key is absent. -/
lemma takeAndClear_fst (logs : Store) (id : String) :
    (takeAndClear logs id).1 = (logs id).getD [] := by
  unfold takeAndClear
  cases logs id <;> rfl

/-- After `takeAndClear`, the key is unmapped. -/
lemma takeAndClear_snd_at (logs : Store) (id : String) :
    (takeAndClear logs id).2 id = none := by
  unfold takeAndClear
  cases h : logs id with
  | none => exact h
  | some ee => simp [Store.delete_at]

/-- `takeAndClear` leaves every other key unchanged. -/
lemma takeAndClear_snd_other (logs : Store) (id : String) (j : String)
    (h : j ≠ id) : (takeAndClear logs id).2 j = logs j := by
  unfold takeAndClear
  cases logs id with
  | none => rfl
  | some ee => simp [Store.delete_other _ _ _ h]

/-- On a key with no mapping, `takeAndClear` yields the empty sequence and
an unchanged store. -/
lemma takeAndClear_of_none (logs : Store) (id : String) (h : logs id = none) :
    takeAndClear logs id = ([], logs) := by
  unfold takeAndClear
  rw [h]

/-- The store `finish` returns is the one `takeAndClear` produced, on every
control path. -/
lemma finish_store (cfg : Config) (logs : Store) (now : Nat) (kind : LogKind)
    (tid route : String) (status duration : Int) :
    (finish cfg logs now kind tid route status duration).1 = (takeAndClear logs tid).2 := by
  unfold finish
  dsimp only
  split
  · rfl
  · split <;> rfl

end GoLogger

open GoLogger

/-- C4: `takeAndClear` returns exactly the buffered sequence and, run again
with no intervening append, returns the empty sequence; `finish` (which
performs the take-and-clear) removes the id's mapping, so a second finish
with the same id drains an empty sequence. -/
theorem c4_take_and_clear_idempotent (logs : Store) (id : String) :
    (takeAndClear logs id).1 = (logs id).getD []
    ∧ takeAndClear (takeAndClear logs id).2 id = ([], (takeAndClear logs id).2)
    ∧ ∀ (cfg : Config) (now : Nat) (kind : LogKind) (route : String) (status duration : Int),
        (finish cfg logs now kind id route status duration).1 id = none
        ∧ (takeAndClear (finish cfg logs now kind id route status duration).1 id).1 = [] := by
  refine ⟨takeAndClear_fst logs id, ?_, ?_⟩
  · exact takeAndClear_of_none _ _ (takeAndClear_snd_at logs id)
  · intro cfg now kind route status duration
    have h1 : (finish cfg logs now kind id route status duration).1 id = none := by
      rw [finish_store]
      exact takeAndClear_snd_at logs id
    refine ⟨h1, ?_⟩
    rw [takeAndClear_fst, h1]
    rfl

/-- C10: on every control path (any kind, any callback configuration, so
also when the emission is suppressed or no callback is set), `finish`
removes the id's mapping from the store and leaves the mapping of every
other id unchanged. -/
theorem c10_finish_frame (cfg : Config) (logs : Store) (now : Nat) (kind : LogKind)
    (id route : String) (status duration : Int) :
    (finish cfg logs now kind id route status duration).1 id = none
    ∧ ∀ j, j ≠ id → (finish cfg logs now kind id route status duration).1 j = logs j := by
  rw [finish_store]
  exact ⟨takeAndClear_snd_at logs id, fun j hj => takeAndClear_snd_other logs id j hj⟩

/-- Witness for C10: a session finish with no callbacks configured on a
store holding entries under two ids drops the finished id's buffer and
keeps the other id's buffer. -/
theorem c10_finish_frame_witness :
    (finish ⟨false, false, false, false⟩
        ((emptyStore.store "t" [{ threadId := "t", level := "Info", message := "a" }]).store
          "u" [{ threadId := "u", level := "Info", message := "b" }])
        0 LogKind.session "t" "r" 0 0).1 "t" = none
    ∧ (finish ⟨false, false, false, false⟩
        ((emptyStore.store "t" [{ threadId := "t", level := "Info", message := "a" }]).store
          "u" [{ threadId := "u", level := "Info", message := "b" }])
        0 LogKind.session "t" "r" 0 0).1 "u"
      = some [{ threadId := "u", level := "Info", message := "b" }] := by
  have h := c10_finish_frame ⟨false, false, false, false⟩
    ((emptyStore.store "t" [{ threadId := "t", level := "Info", message := "a" }]).store
      "u" [{ threadId := "u", level := "Info", message := "b" }])
    0 LogKind.session "t" "r" 0 0
  refine ⟨h.1, ?_⟩
  rw [h.2 "u" (by decide)]
  decide

/-- C3: a finish of kind Session whose drained sequence is empty returns
without invoking any callback, whatever the callback configuration. -/
theorem c3_session_empty_suppressed (cfg : Config) (logs : Store) (now : Nat)
    (id route : String) (status duration : Int)
    (h : (takeAndClear logs id).1 = []) :
    (finish cfg logs now LogKind.session id route status duration).2 = [] := by
  unfold finish
  dsimp only
  rw [if_pos ⟨rfl, h⟩]

/-- Witness for C3: a session finish on an id with no mapping, with both
callbacks configured, emits nothing. -/
theorem c3_session_empty_suppressed_witness :
    (finish ⟨true, true, false, false⟩ emptyStore 0 LogKind.session "t" "r" 0 0).2 = [] :=
  c3_session_empty_suppressed ⟨true, true, false, false⟩ emptyStore 0 "t" "r" 0 0 (by decide)

/-- C7: when the uuid generator fails, `NewId` still returns the string
value the generator produced, records exactly one internal entry — level
Error, empty thread id — appended through the aggregator's own store
under the empty key, leaves every other key unchanged, and (by the shape
of `newId`, whose result carries no error component, matching the Go
signature `NewId() string`) propagates no error to the caller. -/
theorem c7_newid_error_fallback (logs : Store) (v err : String) :
    (newId logs v (some err)).1 = v
    ∧ (newId logs v (some err)).2 "" = some ((logs "").getD [] ++ [uuidErrEntry err])
    ∧ (uuidErrEntry err).level = "Error"
    ∧ (uuidErrEntry err).threadId = ""
    ∧ ∀ j, j ≠ "" → (newId logs v (some err)).2 j = logs j := by
  refine ⟨rfl, ?_, rfl, rfl, ?_⟩
  · exact insertEntry_at logs (uuidErrEntry err)
  · intro j hj
    exact insertEntry_other logs (uuidErrEntry err) j hj

/-- Witness for C7: concrete generator failure on a logger with one entry
buffered under id "x": the defective value comes back, the error entry is
stored under the empty key, and "x"'s buffer is untouched. -/
theorem c7_newid_error_fallback_witness :
    (newId (emptyStore.store "x" [{ threadId := "x", level := "Info", message := "a" }])
        "" (some "entropy exhausted")).1 = ""
    ∧ (newId (emptyStore.store "x" [{ threadId := "x", level := "Info", message := "a" }])
        "" (some "entropy exhausted")).2 ""
      = some [uuidErrEntry "entropy exhausted"]
    ∧ (newId (emptyStore.store "x" [{ threadId := "x", level := "Info", message := "a" }])
        "" (some "entropy exhausted")).2 "x"
      = some [{ threadId := "x", level := "Info", message := "a" }] := by
  have h := c7_newid_error_fallback
    (emptyStore.store "x" [{ threadId := "x", level := "Info", message := "a" }])
    "" "entropy exhausted"
  refine ⟨h.1, ?_, ?_⟩
  · rw [h.2.1]
    decide
  · rw [h.2.2.2.2 "x" (by decide)]
    decide

/-- C8: `SeenError` hands the store back unchanged (its only store
operation is a `Load`), answers `true` exactly when the currently buffered
sequence for the session's id has an Error-level entry, and answers
`false` when the id has no mapping. -/
theorem c8_seen_error_peek (logs : Store) (s : Session) :
    (Session.seenError logs s).2 = logs
    ∧ ((Session.seenError logs s).1 = true ↔ ∃ e ∈ (logs s.id).getD [], e.level = "Error")
    ∧ (logs s.id = none → (Session.seenError logs s).1 = false) := by
  unfold Session.seenError
  cases h : logs s.id with
  | none => simp
  | some ee => simp [List.any_eq_true]

/-- Witness for C8: a session that recorded one Info and one Error entry
reports `true` with its buffer intact; a fresh session with no entries
reports `false`. -/
theorem c8_seen_error_peek_witness :
    (Session.seenError
        (emptyStore.store "t" [{ threadId := "t", level := "Info", message := "a" },
                               { threadId := "t", level := "Error", message := "b" }])
        ⟨"sess", "t"⟩).1 = true
    ∧ (Session.seenError
        (emptyStore.store "t" [{ threadId := "t", level := "Info", message := "a" },
                               { threadId := "t", level := "Error", message := "b" }])
        ⟨"sess", "t"⟩).2
      = emptyStore.store "t" [{ threadId := "t", level := "Info", message := "a" },
                              { threadId := "t", level := "Error", message := "b" }]
    ∧ (Session.seenError emptyStore ⟨"fresh", "u"⟩).1 = false := by
  have h1 := c8_seen_error_peek
    (emptyStore.store "t" [{ threadId := "t", level := "Info", message := "a" },
                           { threadId := "t", level := "Error", message := "b" }])
    ⟨"sess", "t"⟩
  have h2 := c8_seen_error_peek emptyStore ⟨"fresh", "u"⟩
  refine ⟨?_, h1.1, h2.2.2 rfl⟩
  exact h1.2.1.mpr ⟨{ threadId := "t", level := "Error", message := "b" }, by decide, by decide⟩

/-- Unsuppressed record calls append their constructed entries to the id's
buffer in call order, whatever was buffered before. -/
lemma recordMany_at (cfg : Config) (id : String) :
    ∀ (calls : List (LogLevel × String × CallerInfo)) (logs : Store),
      (∀ c ∈ calls, ¬(c.1 = LogLevel.debug ∧ cfg.disableDebug = true)) →
      ((recordMany cfg logs id calls) id).getD []
        = (logs id).getD [] ++ calls.map (fun c => mkEntry cfg c.2.2 c.1 id c.2.1) := by
  intro calls
  induction calls with
  | nil =>
    intro logs _
    simp [recordMany]
  | cons hd tl ih =>
    intro logs h
    have hhd : ¬(hd.1 = LogLevel.debug ∧ cfg.disableDebug = true) :=
      h hd (List.mem_cons_self _ _)
    have hstep : recordMany cfg logs id (hd :: tl)
        = recordMany cfg (logEntry cfg logs hd.2.2 hd.1 id hd.2.1).2 id tl := rfl
    have hlog : (logEntry cfg logs hd.2.2 hd.1 id hd.2.1).2
        = insertEntry logs (mkEntry cfg hd.2.2 hd.1 id hd.2.1) := by
      unfold logEntry
      rw [if_neg hhd]
    rw [hstep, hlog, ih _ (fun c hc => h c (List.mem_cons_of_mem _ hc))]
    have hat := insertEntry_at logs (mkEntry cfg hd.2.2 hd.1 id hd.2.1)
    have hid : (mkEntry cfg hd.2.2 hd.1 id hd.2.1).threadId = id := rfl
    rw [hid] at hat
    rw [hat]
    simp

/-- C9: N sequential record calls with the same fresh id, none suppressed,
leave exactly the N constructed entries in the buffer, and the finish-time
drain returns them in call order. -/
theorem c9_append_order (cfg : Config) (logs : Store) (id : String)
    (calls : List (LogLevel × String × CallerInfo))
    (hfresh : logs id = none)
    (hns : ∀ c ∈ calls, ¬(c.1 = LogLevel.debug ∧ cfg.disableDebug = true)) :
    (takeAndClear (recordMany cfg logs id calls) id).1
      = calls.map (fun c => mkEntry cfg c.2.2 c.1 id c.2.1) := by
  rw [takeAndClear_fst, recordMany_at cfg id calls logs hns, hfresh]
  simp

/-- Witness for C9: an Info call then an Error call under id "t" on an
empty store drain back as the two constructed entries, in call order. -/
theorem c9_append_order_witness :
    (takeAndClear
        (recordMany ⟨true, true, false, true⟩ emptyStore "t"
          [(LogLevel.info, "a", (none : CallerInfo)), (LogLevel.error, "b", none)])
        "t").1
      = [{ threadId := "t", level := "Info", message := "a" },
         { threadId := "t", level := "Error", message := "b" }] := by
  have h := c9_append_order ⟨true, true, false, true⟩ emptyStore "t"
    [(LogLevel.info, "a", (none : CallerInfo)), (LogLevel.error, "b", none)]
    rfl (by decide)
  rw [h]
  decide

/-- Abbreviation for the `Log` record `finish` builds, used in statements
about emissions. -/
def mkLog (now : Nat) (kind : LogKind) (tid route : String) (status duration : Int)
    (entries : List Entry) : Log :=
  { date := now, kind := kind, threadId := tid, route := route,
    status := status, duration := duration, entries := entries }

/-- A configuration with both callbacks set (and call-site capture off, so
fixture entries have empty call-site fields). -/
def cfgBothCbs : Config := ⟨true, true, false, true⟩

/-- Fixture entry Info("a") under thread id "t". -/
def entA : Entry := { threadId := "t", level := "Info", message := "a" }

/-- Fixture entry Error("b") under thread id "t". -/
def entB : Entry := { threadId := "t", level := "Error", message := "b" }

/-- Fixture entry Debug("c") under thread id "t". -/
def entC : Entry := { threadId := "t", level := "Debug", message := "c" }

/-- Fixture entry Error("d") under thread id "t". -/
def entD : Entry := { threadId := "t", level := "Error", message := "d" }

/-- Fixture store buffering the spec's §8.6 sequence [Info("a"),
Error("b"), Debug("c"), Error("d")] under id "t". -/
def storeABCD : Store := emptyStore.store "t" [entA, entB, entC, entD]

/-- C1 counterexample: with the §8.6 entries buffered and both callbacks
configured, the error callback does get the errors-only record in order,
but the main callback then receives the same errors-only record — its
entries are [Error("b"), Error("d")], not the full four-entry sequence the
claim asserts (the `log.Entries = errs` assignment in `end` is visible to
the later `OnLogEvent(log)` call). -/
theorem c1_error_isolation_counterexample :
    (takeAndClear storeABCD "t").1 = [entA, entB, entC, entD]
    ∧ (finish cfgBothCbs storeABCD 0 LogKind.request "t" "/r" 200 5).2
      = [Emission.errCB (mkLog 0 LogKind.request "t" "/r" 200 5 [entB, entD]),
         Emission.mainCB (mkLog 0 LogKind.request "t" "/r" 200 5 [entB, entD])]
    ∧ (mkLog 0 LogKind.request "t" "/r" 200 5 [entB, entD]).entries
      ≠ [entA, entB, entC, entD] := by
  decide

/-- C1 amended: for every finish on an id whose drained sequence contains
at least one Error-level entry, with both callbacks configured, the error
callback is invoked with a record whose entries are exactly the
Error-level entries in original relative order, and the main callback is
then invoked with that same errors-only record (not the unfiltered
sequence). -/
theorem c1_error_isolation_amended (cfg : Config) (logs : Store) (now : Nat)
    (kind : LogKind) (tid route : String) (status duration : Int)
    (hmain : cfg.hasOnLogEvent = true) (herr : cfg.hasOnError = true)
    (hE : (takeAndClear logs tid).1.filter (fun e => e.level = LogLevel.error.toString) ≠ []) :
    (finish cfg logs now kind tid route status duration).2
      = [Emission.errCB (mkLog now kind tid route status duration
            ((takeAndClear logs tid).1.filter (fun e => e.level = LogLevel.error.toString))),
         Emission.mainCB (mkLog now kind tid route status duration
            ((takeAndClear logs tid).1.filter (fun e => e.level = LogLevel.error.toString)))] := by
  have hne : (takeAndClear logs tid).1 ≠ [] := by
    intro h0
    apply hE
    rw [h0]
    rfl
  unfold finish
  dsimp only
  rw [if_neg (fun hc => hne hc.2)]
  rw [if_pos hmain, if_pos ⟨herr, hE⟩, if_pos ⟨herr, hE⟩]
  rfl

/-- Witness for C1 amended: a session finish over the §8.6 fixture emits
the errors-only record to both callbacks. -/
theorem c1_error_isolation_amended_witness :
    (finish cfgBothCbs storeABCD 3 LogKind.session "t" "sess" 0 0).2
      = [Emission.errCB (mkLog 3 LogKind.session "t" "sess" 0 0 [entB, entD]),
         Emission.mainCB (mkLog 3 LogKind.session "t" "sess" 0 0 [entB, entD])] := by
  have h := c1_error_isolation_amended cfgBothCbs storeABCD 3 LogKind.session "t" "sess" 0 0
    rfl rfl (by decide)
  rw [h]
  decide

/-- Fixture store buffering [Info("a"), Error("b")] under id "t". -/
def storeAB : Store := emptyStore.store "t" [entA, entB]

/-- C5 counterexample: a Request finish with the main callback configured
does fire, but when the error callback is also configured and an Error
entry was drained, the main callback's record does not carry the drained
entry sequence: it carries the errors-only filtered sequence instead. -/
theorem c5_request_emission_counterexample :
    (takeAndClear storeAB "t").1 = [entA, entB]
    ∧ (finish cfgBothCbs storeAB 0 LogKind.request "t" "/r" 200 7).2
      = [Emission.errCB (mkLog 0 LogKind.request "t" "/r" 200 7 [entB]),
         Emission.mainCB (mkLog 0 LogKind.request "t" "/r" 200 7 [entB])]
    ∧ (mkLog 0 LogKind.request "t" "/r" 200 7 [entB]).entries ≠ [entA, entB] := by
  decide

/-- C5 amended: for every Request finish with the main callback
configured, the main callback is invoked — also when the drained sequence
is empty — with a record carrying exactly the supplied route, status and
duration; its entries are the drained sequence, except that when the
error callback is configured and the drained sequence contains an
Error-level entry, the main callback receives the errors-only filtered
sequence (preceded by the error-callback invocation). -/
theorem c5_request_emission_amended (cfg : Config) (logs : Store) (now : Nat)
    (tid route : String) (status duration : Int)
    (hmain : cfg.hasOnLogEvent = true) :
    (finish cfg logs now LogKind.request tid route status duration).2
      = (if cfg.hasOnError = true
            ∧ (takeAndClear logs tid).1.filter (fun e => e.level = LogLevel.error.toString) ≠ []
          then [Emission.errCB (mkLog now LogKind.request tid route status duration
                  ((takeAndClear logs tid).1.filter (fun e => e.level = LogLevel.error.toString)))]
          else [])
        ++ [Emission.mainCB (mkLog now LogKind.request tid route status duration
              (if cfg.hasOnError = true
                  ∧ (takeAndClear logs tid).1.filter (fun e => e.level = LogLevel.error.toString) ≠ []
                then (takeAndClear logs tid).1.filter (fun e => e.level = LogLevel.error.toString)
                else (takeAndClear logs tid).1))] := by
  unfold finish
  dsimp only
  rw [if_neg (fun hc => LogKind.noConfusion hc.1)]
  rw [if_pos hmain]
  by_cases hP : cfg.hasOnError = true
      ∧ (takeAndClear logs tid).1.filter (fun e => e.level = LogLevel.error.toString) ≠ []
  · rw [if_pos hP, if_pos hP, if_pos hP, if_pos hP]
    rfl
  · rw [if_neg hP, if_neg hP, if_neg hP, if_neg hP]
    rfl

/-- Witness for C5 amended, empty-drain side: a Request finish on an id
with nothing buffered, both callbacks configured, invokes only the main
callback, whose record carries the supplied route, status, duration and
zero entries. -/
theorem c5_request_emission_amended_witness :
    (finish cfgBothCbs emptyStore 2 LogKind.request "t" "/home" 404 9).2
      = [Emission.mainCB (mkLog 2 LogKind.request "t" "/home" 404 9 [])] := by
  have h := c5_request_emission_amended cfgBothCbs emptyStore 2 "t" "/home" 404 9 rfl
  rw [h]
  decide

/-- A configuration with debug entries disabled (and call-site capture
enabled). -/
def cfgDebugOff : Config := ⟨false, false, true, false⟩

/-- A call-site sample: `runtime.Caller` reporting function
`"path/to/pkg.fn"` in file `"f.go"` at line 3. -/
def callerSample : CallerInfo := some ("path/to/pkg.fn", "f.go", 3)

/-- C2 evaluation: with debug disabled, the package `logger` variant
(part_000) suppresses only Debug — a Debug call returns the no-op entry
`&Entry{}` and stores nothing, while Info and Error calls construct
full entries and store them — but the package `log` variant (log.go)
guards on `if l.DisableDebug` alone, so its Info (and Error) calls also
return `&entry{}` and store nothing, contradicting the claim that only
the Debug level is suppressed. -/
theorem c2_debug_suppression_eval :
    (logEntry cfgDebugOff emptyStore callerSample LogLevel.debug "t" "m").1 = ({} : Entry)
    ∧ (logEntry cfgDebugOff emptyStore callerSample LogLevel.debug "t" "m").2 "t" = none
    ∧ (logEntry cfgDebugOff emptyStore callerSample LogLevel.info "t" "m").2 "t"
      = some [{ threadId := "t", level := "Info", function := "pkg.fn",
                file := "f.go", line := 3, message := "m" }]
    ∧ (logEntry cfgDebugOff emptyStore callerSample LogLevel.error "t" "m").2 "t"
      = some [{ threadId := "t", level := "Error", function := "pkg.fn",
                file := "f.go", line := 3, message := "m" }]
    ∧ (LogPkg.logEntry cfgDebugOff LogPkg.emptyLStore callerSample "gid" LogLevel.info "t" "m").1
      = ({} : LogPkg.LEntry)
    ∧ (LogPkg.logEntry cfgDebugOff LogPkg.emptyLStore callerSample "gid" LogLevel.info "t" "m").2 "t"
      = none
    ∧ (LogPkg.logEntry cfgDebugOff LogPkg.emptyLStore callerSample "gid" LogLevel.error "t" "m").2 "t"
      = none := by
  decide

/-- Two goroutines, each with one pending insert under the shared id "t":
the first will insert Info("a") (`entA`), the second Error("b") (`entB`). -/
def raceThreads : List RThread := [⟨[entA], none⟩, ⟨[entB], none⟩]

/-- C6: the `Load`-then-`Store` in `insertEntry` is not atomic, so the
schedule T1.Load, T2.Load, T1.Store, T2.Store — legal, as the logger holds
no lock around the two `sync.Map` calls — runs both goroutines to
completion (M = 2 callers, K = 1 entry each) yet leaves only one entry
under "t": both `Load`s miss, T2's `Store` of its singleton overwrites
T1's, and the finish-time drain returns 1 entry, not M×K = 2.  `entA` is
lost. -/
theorem c6_concurrent_append_lost_update :
    (runSched emptyStore raceThreads [0, 1, 0, 1]).2
      = [⟨[], none⟩, ⟨[], none⟩]
    ∧ (runSched emptyStore raceThreads [0, 1, 0, 1]).1 "t" = some [entB]
    ∧ (takeAndClear (runSched emptyStore raceThreads [0, 1, 0, 1]).1 "t").1.length = 1
    ∧ (takeAndClear (runSched emptyStore raceThreads [0, 1, 0, 1]).1 "t").1.length ≠ 2 * 1 := by
  decide
